import Mathlib

/-
Verification of the codecks-mcp TypeScript repository against its
natural-language specification.

The development shallowly embeds the relevant source functions:
  - src/security.ts   : validateUuid, tagUserText, sanitizeCard
  - src/contract.ts   : ensureContractDict (response-contract normalizer)
  - src/api.ts        : httpRequest (retrying HTTP transport)
  - src/client.ts     : CodecksClient.listCards, updateCards, deleteCard,
                        splitFeatures and their helpers

JavaScript dynamic values are modelled by the inductive type JVal; a
JavaScript object is a list of key/value pairs in insertion order
(objects in this code never carry duplicate keys).  `undefined` is
modelled as absence, i.e. an Option layer on top of JVal.  Network
effects are modelled by passing the remote behaviour in as a function
argument and returning, next to the result, the list of requests that
were issued.
-/

/-- Model of a JavaScript runtime value (JSON-shaped: this code never
stores functions inside data). -/
inductive JVal where
  | null
  | bool (b : Bool)
  | num (n : Int)
  | str (s : String)
  | arr (xs : List JVal)
  | obj (fields : List (String × JVal))

/-- A JavaScript object: fields in insertion order, keys unique. -/
abbrev JObj := List (String × JVal)

/-- Property read `o[k]`: `none` models `undefined`. -/
def getK (p : JObj) (k : String) : Option JVal :=
  (p.find? (fun kv => kv.1 == k)).map (fun kv => kv.2)

/-- The JavaScript `k in o` test. -/
def hasK (p : JObj) (k : String) : Bool :=
  p.any (fun kv => kv.1 == k)

/-- Property write `o[k] = v`: overwrites in place, else appends (JS
objects keep the original key position on re-assignment). -/
def setK (p : JObj) (k : String) (v : JVal) : JObj :=
  if hasK p k then p.map (fun kv => if kv.1 == k then (k, v) else kv)
  else p ++ [(k, v)]

/-- Property read on an arbitrary value: only objects expose keys;
reads on arrays/primitives used by this code always yield undefined. -/
def getMember (v : JVal) (k : String) : Option JVal :=
  match v with
  | .obj fields => getK fields k
  | _ => none

/-- JavaScript nullish test for `??` / `??=` on a possibly-absent value
(undefined is modelled as `none`). -/
def jsNullish (o : Option JVal) : Bool :=
  match o with
  | none => true
  | some .null => true
  | some _ => false

/-- JavaScript `a ?? d` where `a` may be undefined. -/
def jsCoalesce (o : Option JVal) (d : JVal) : JVal :=
  match o with
  | none => d
  | some .null => d
  | some v => v

/-- JavaScript truthiness of a value. -/
def jsTruthyV (v : JVal) : Bool :=
  match v with
  | .null => false
  | .bool b => b
  | .num n => n != 0
  | .str s => s != ""
  | .arr _ => true
  | .obj _ => true

mutual
/-- JavaScript `String(v)` coercion. -/
def jsToString : JVal → String
  | .null => "null"
  | .bool b => if b then "true" else "false"
  | .num n => toString n
  | .str s => s
  | .obj _ => "[object Object]"
  | .arr xs => String.intercalate "," (jsArrElems xs)
/-- Element strings for `String(array)`: null elements print empty. -/
def jsArrElems : List JVal → List String
  | [] => []
  | .null :: xs => "" :: jsArrElems xs
  | x :: xs => jsToString x :: jsArrElems xs
end

/-- JavaScript `String(v)` where `v` may be undefined. -/
def jsToStringU (o : Option JVal) : String :=
  match o with
  | none => "undefined"
  | some v => jsToString v

/-- Shorthand for the frequent `String(x ?? "")` pattern. -/
def jsStr0 (o : Option JVal) : String :=
  jsToString (jsCoalesce o (.str ""))

/-- Character-level model of `String.prototype.toLowerCase` (the
strings in this code are ASCII). -/
def jsToLower (s : String) : String :=
  String.mk (s.toList.map Char.toLower)

/-- Accumulator for `jsSplitComma`. -/
def jsSplitCommaAux : List Char → List Char → List String
  | [], acc => [String.mk acc.reverse]
  | c :: rest, acc =>
      if c = ',' then String.mk acc.reverse :: jsSplitCommaAux rest []
      else jsSplitCommaAux rest (c :: acc)

/-- Model of `value.split(",")`. -/
def jsSplitComma (s : String) : List String :=
  jsSplitCommaAux s.toList []

/-- Model of `String.prototype.trim`. -/
def jsTrim (s : String) : String :=
  String.mk (((s.toList.dropWhile Char.isWhitespace).reverse.dropWhile
    Char.isWhitespace).reverse)

mutual
/-- Minimal model of `JSON.stringify` for the query documents this code
builds (string escaping is elided: the embedded filter values are plain
identifiers). -/
def jsonStringify : JVal → String
  | .null => "null"
  | .bool b => if b then "true" else "false"
  | .num n => toString n
  | .str s => "\"" ++ s ++ "\""
  | .arr xs => "[" ++ String.intercalate "," (jsonStringifyList xs) ++ "]"
  | .obj fields => "\x7b" ++ String.intercalate "," (jsonStringifyFields fields) ++ "\x7d"
/-- JSON serialization of array elements. -/
def jsonStringifyList : List JVal → List String
  | [] => []
  | x :: xs => jsonStringify x :: jsonStringifyList xs
/-- JSON serialization of object fields. -/
def jsonStringifyFields : List (String × JVal) → List String
  | [] => []
  | (k, v) :: rest => ("\"" ++ k ++ "\":" ++ jsonStringify v) :: jsonStringifyFields rest
end

/-
Security layer, from src/security.ts.
-/

/-- Number of hyphen characters in a string, as counted by the global
hyphen regular-expression match in `validateUuid`. -/
def hyphenCount (s : String) : Nat :=
  (s.toList.filter (fun c => c = '-')).length

/-- Embedding of `validateUuid` from src/security.ts: a thrown CliError
is modelled as `Except.error` carrying the message. -/
def validateUuid (value : String) (field : String) : Except String String :=
  if value.length ≠ 36 ∨ hyphenCount value ≠ 4 then
    .error ("[ERROR] " ++ field ++ " must be a full 36-char UUID, got: "
      ++ jsonStringify (.str value))
  else
    .ok value

/-- Embedding of `validateUuidList` from src/security.ts: validates in
order and fails on the first invalid entry. -/
def validateUuidList (values : List String) (field : String) :
    Except String (List String) :=
  values.mapM (fun v => validateUuid v field)

/-- Embedding of `tagUserText` from src/security.ts, on the string it
wraps. -/
def tagStr (text : String) : String :=
  "[USER_DATA]" ++ text ++ "[/USER_DATA]"

/-- Embedding of `tagUserText` including its null/undefined passthrough
(`none` models both). -/
def tagUserText (text : Option String) : Option String :=
  match text with
  | none => none
  | some t => some (tagStr t)

/-- The `USER_TEXT_FIELDS` set of src/security.ts, in insertion order
(JS Set iteration order). -/
def USER_TEXT_FIELDS : List String :=
  ["title", "content", "deck_name", "owner_name", "milestone_name"]

/-- Tagging pass of `sanitizeCard` over one top-level user-text field:
returns the updated object and the warnings contributed by the field.
The injection detector is passed in as a function (its regular
expressions are not re-modelled here; the sanitizer only consumes the
list of finding labels it returns). -/
def sanitizeField (checkInjection : String → List String)
    (acc : JObj × List String) (field : String) : JObj × List String :=
  let (out, warnings) := acc
  match getK out field with
  | some (.str s) =>
      (setK out field (.str (tagStr s)),
        warnings ++ (checkInjection s).map (fun desc => field ++ ": " ++ desc))
  | _ => (out, warnings)

/-- Tagging of one sub-card title inside `sanitizeCard`. -/
def sanitizeSubCard (checkInjection : String → List String)
    (sc : JVal) : JVal × List String :=
  match sc with
  | .obj fields =>
      (match getK fields "title" with
       | some (.str s) =>
           (.obj (setK fields "title" (.str (tagStr s))),
             (checkInjection s).map (fun desc => "sub_card.title: " ++ desc))
       | _ => (.obj fields, []))
  | other => (other, [])

/-- Tagging of one conversation message inside `sanitizeCard`. -/
def sanitizeMessage (checkInjection : String → List String)
    (msg : JVal) : JVal × List String :=
  match msg with
  | .obj fields =>
      (match getK fields "content" with
       | some (.str s) =>
           (.obj (setK fields "content" (.str (tagStr s))),
             (checkInjection s).map (fun desc => "conversation.message: " ++ desc))
       | _ => (.obj fields, []))
  | other => (other, [])

/-- Tagging of one conversation (its `messages` array) inside
`sanitizeCard`. -/
def sanitizeConversation (checkInjection : String → List String)
    (conv : JVal) : JVal × List String :=
  match conv with
  | .obj fields =>
      (match getK fields "messages" with
       | some (.arr msgs) =>
           let tagged := msgs.map (sanitizeMessage checkInjection)
           (.obj (setK fields "messages" (.arr (tagged.map Prod.fst))),
             (tagged.map Prod.snd).flatten)
       | _ => (.obj fields, []))
  | other => (other, [])

/-- Embedding of `sanitizeCard` from src/security.ts: tags the fixed
user-text fields, nested sub-card titles and nested conversation
messages, and attaches `_safety_warnings` when any finding occurred. -/
def sanitizeCard (checkInjection : String → List String) (card : JObj) : JObj :=
  let (out, warnings) := USER_TEXT_FIELDS.foldl (sanitizeField checkInjection) (card, [])
  let (out, warnings) :=
    match getK out "sub_cards" with
    | some (.arr scs) =>
        let tagged := scs.map (sanitizeSubCard checkInjection)
        (setK out "sub_cards" (.arr (tagged.map Prod.fst)),
          warnings ++ (tagged.map Prod.snd).flatten)
    | _ => (out, warnings)
  let (out, warnings) :=
    match getK out "conversations" with
    | some (.arr convs) =>
        let tagged := convs.map (sanitizeConversation checkInjection)
        (setK out "conversations" (.arr (tagged.map Prod.fst)),
          warnings ++ (tagged.map Prod.snd).flatten)
    | _ => (out, warnings)
  if warnings.length > 0 then
    setK out "_safety_warnings" (.arr (warnings.map (fun w => .str w)))
  else out

/-
Response-contract normalizer, from src/contract.ts.
-/

/-- The CONTRACT_SCHEMA_VERSION constant of src/config.ts. -/
def CONTRACT_SCHEMA_VERSION : String := "1.0"

/-- Test for the strict comparison `out.ok === false`. -/
def isFalseV (o : Option JVal) : Bool :=
  match o with
  | some (.bool false) => true
  | _ => false

/-- The statement `out.schema_version ??= CONTRACT_SCHEMA_VERSION` of
`ensureContractDict`. -/
def ensureSchemaVersion (p : JObj) : JObj :=
  if jsNullish (getK p "schema_version") then
    setK p "schema_version" (.str CONTRACT_SCHEMA_VERSION)
  else p

/-- The error-message coercion of `ensureContractDict`: when `out.error`
is not a string it is replaced by its `String(...)` coercion. -/
def coerceErrorMessage (p : JObj) : JObj :=
  match getK p "error" with
  | some (.str _) => p
  | other => setK p "error" (.str (jsToStringU other))

/-- The `error_detail` object that `ensureContractDict` backfills, read
off a payload whose `error` field has already been coerced to a
string. -/
def errorDetailOf (p : JObj) : JVal :=
  .obj [("type", .str (jsToString (jsCoalesce (getK p "type") (.str "error")))),
        ("message", .str (match getK p "error" with
                          | some (.str s) => s
                          | other => jsToStringU other))]

/-- The statement `out.error_detail ??= ...` of `ensureContractDict`. -/
def ensureErrorDetail (p : JObj) : JObj :=
  if jsNullish (getK p "error_detail") then
    setK p "error_detail" (errorDetailOf p)
  else p

/-- Embedding of `ensureContractDict` from src/contract.ts: adds the
schema version, then either completes an explicit `ok:false` error
payload or marks the payload as a success. -/
def ensureContractDict (payload : JObj) : JObj :=
  let out := ensureSchemaVersion payload
  if isFalseV (getK out "ok") then
    ensureErrorDetail (coerceErrorMessage out)
  else
    if jsNullish (getK out "ok") then setK out "ok" (.bool true) else out

/-
HTTP transport, from src/api.ts.
-/

/-- The RETRYABLE_HTTP_CODES set of src/api.ts. -/
def RETRYABLE_HTTP_CODES : List Nat := [429, 502, 503, 504]

/-- Outcome of one fetch attempt: a completed HTTP response with status
and body text, an abort by the per-attempt timeout, or a connection
failure. -/
inductive AttemptOutcome where
  | http (status : Nat) (body : String)
  | timeout
  | connError (msg : String)

/-- Terminal failures of `httpRequest`: an HTTPError carrying the
status, or one of its CliError variants. -/
inductive ReqError where
  | httpError (code : Nat) (body : String)
  | tooLarge
  | badJson
  | timedOut
  | connFailed (msg : String)
  | exhausted

/-- The `response.ok` predicate (status in the 2xx range). -/
def responseOk (status : Nat) : Bool :=
  200 ≤ status && status < 300

/-- Loop body of `httpRequest` from src/api.ts.  `attempt` is the
current attempt index and `fuel` the number of attempts still allowed
(initially `maxAttempts`), so the source guard
`attempt < maxAttempts - 1` is `0 < fuel - 1` here.  The sleeps between
attempts do not affect the result and are not modelled.  Returns the
result together with the number of attempts performed. -/
def httpLoop (idempotent : Bool) (maxBytes : Nat) (parseJson : String → Option JVal)
    (outcomes : Nat → AttemptOutcome) : Nat → Nat → Except ReqError JVal × Nat
  | _, 0 => (.error .exhausted, 0)
  | attempt, fuel + 1 =>
    match outcomes attempt with
    | .http status body =>
        if responseOk status then
          if body.length > maxBytes then (.error .tooLarge, 1)
          else
            match parseJson body with
            | some v => (.ok v, 1)
            | none => (.error .badJson, 1)
        else
          if idempotent && 0 < fuel && RETRYABLE_HTTP_CODES.contains status then
            let (r, n) := httpLoop idempotent maxBytes parseJson outcomes (attempt + 1) fuel
            (r, n + 1)
          else (.error (.httpError status body), 1)
    | .timeout =>
        if idempotent && 0 < fuel then
          let (r, n) := httpLoop idempotent maxBytes parseJson outcomes (attempt + 1) fuel
          (r, n + 1)
        else (.error .timedOut, 1)
    | .connError msg =>
        if idempotent && 0 < fuel then
          let (r, n) := httpLoop idempotent maxBytes parseJson outcomes (attempt + 1) fuel
          (r, n + 1)
        else (.error (.connFailed msg), 1)

/-- The attempt budget `1 + Math.max(0, idempotent ? config.httpMaxRetries : 0)`
of `httpRequest` (the configured retry count is an int from the
environment, hence clamped at zero). -/
def maxAttempts (idempotent : Bool) (httpMaxRetries : Int) : Nat :=
  1 + (if idempotent then max 0 httpMaxRetries else 0).toNat

/-- Embedding of `httpRequest` from src/api.ts: the remote behaviour is
given by `outcomes` (outcome of each attempt index), JSON parsing of a
response body by `parseJson`.  Returns the result and the number of
attempts performed. -/
def httpRequest (idempotent : Bool) (httpMaxRetries : Int) (maxBytes : Nat)
    (parseJson : String → Option JVal) (outcomes : Nat → AttemptOutcome) :
    Except ReqError JVal × Nat :=
  httpLoop idempotent maxBytes parseJson outcomes 0 (maxAttempts idempotent httpMaxRetries)

/-
CodecksClient, from src/client.ts.  Remote behaviour is passed in:
`fetch` maps a query document to the parsed response object, `disp`
models the dispatch endpoint, `report` the report endpoint.  Each
operation also returns the requests it issued, in order.
-/

/-- JavaScript truthiness of an optional string parameter (undefined
and the empty string are falsy). -/
def optTruthy (o : Option String) : Bool :=
  match o with
  | some s => s != ""
  | none => false

/-- Object literal whose property values may be undefined: undefined
properties are omitted (as the JSON serialization of the result
would). -/
def objOfDefined (kvs : List (String × Option JVal)) : JObj :=
  kvs.filterMap (fun kv => match kv.2 with
    | some v => some (kv.1, v)
    | none => none)

/-- Embedding of the `getField(obj, ...keys)` helper of src/client.ts:
first key present in the object wins. -/
def getField (obj : JVal) (keys : List String) : Option JVal :=
  match keys with
  | [] => none
  | key :: rest =>
      match obj with
      | .obj fields =>
          match getK fields key with
          | some v => some v
          | none => getField obj rest
      | _ => getField obj rest

/-- Embedding of `filteredKey` from src/client.ts: filter criteria
serialized into the selection key name. -/
def filteredKey (entity : String) (filters : JObj) : String :=
  entity ++ "(" ++ jsonStringify (.obj filters) ++ ")"

/-- The VALID_STATUSES set of src/client.ts, in insertion order. -/
def VALID_STATUSES : List String :=
  ["not_started", "started", "done", "blocked", "in_review", "in_progress"]

/-- Embedding of `parseMultiValue` from src/client.ts: splits on commas,
trims, and rejects the first value outside the allowed set. -/
def parseMultiValue (value : String) (allowed : List String) (label : String) :
    Except String (List String) :=
  let values := (jsSplitComma value).map jsTrim
  match values.find? (fun v => !allowed.contains v) with
  | some v => .error ("[ERROR] Invalid " ++ label ++ ": \x27" ++ v
      ++ "\x27. Valid: " ++ String.intercalate ", " allowed)
  | none => .ok values

/-- Singular/plural key normalization of `extractList`
(`replace s-suffix, then ie-suffix to y`). -/
def jsSingularKey (k : String) : String :=
  let l := k.toList
  let l1 := if l.getLast? = some 's' then l.dropLast else l
  let l2 := if l1.reverse.take 2 = ['e', 'i'] then l1.dropLast.dropLast ++ ['y'] else l1
  String.mk l2

/-- Embedding of `extractEntityMap` from src/client.ts: the values of
the keyed entity map, keeping objects (and arrays: `typeof` calls them
objects too) and discarding primitives and null. -/
def extractEntityMap (result : JObj) (key : String) : List JVal :=
  match getK result key with
  | some (.obj fields) =>
      (fields.map (fun kv => kv.2)).filter (fun v =>
        match v with
        | .obj _ => true
        | .arr _ => true
        | _ => false)
  | _ => []

/-- Embedding of `extractCards` from src/client.ts. -/
def extractCards (result : JObj) : List JVal :=
  extractEntityMap result "card"

/-- Embedding of `extractList` from src/client.ts.  The source tries
the singular key and falls back to the plural one with `||`, but
`extractEntityMap` always returns an array and arrays are truthy in
JavaScript even when empty, so the singular extraction is always the
result. -/
def extractList (result : JObj) (queryKey : String) : List JVal :=
  extractEntityMap result (jsSingularKey queryKey)

/-- The query document issued by `listDecks`. -/
def decksQuery : JVal :=
  .obj [("_root", .arr [.obj [("account",
    .arr [.obj [("decks", .arr [.str "title", .str "id", .str "projectId"])]])]])]

/-- Embedding of `listDecks` from src/client.ts, returning its result
object and the issued query. -/
def listDecks (fetch : JVal → JObj) : JObj × List JVal :=
  let result := fetch decksQuery
  ([("decks", .arr (extractList result "decks"))], [decksQuery])

/-- The options object of `listCards`.  The fields the method body
never reads (project, milestone, tag, priority, cardType, hero,
handOnly, updatedAfter, updatedBefore, limit, offset) are omitted. -/
structure ListOptions where
  deck : Option String := none
  status : Option String := none
  search : Option String := none
  owner : Option String := none
  sort : Option String := none
  staleDays : Option Int := none
  archived : Bool := false
  includeStats : Bool := false

/-- The base card selection fields of `listCards`. -/
def baseCardFields : List JVal :=
  [.str "title", .str "status", .str "priority", .str "deckId", .str "effort",
   .str "createdAt", .str "milestoneId", .str "masterTags", .str "lastUpdatedAt",
   .str "isDoc", .str "childCardInfo",
   .obj [("assignee", .arr [.str "name", .str "id"])]]

/-- Substring test used for the client-side search filter
(`String.prototype.includes`). -/
def jsIncludes (s t : String) : Bool :=
  decide (t.toList <:+: s.toList)

/-- Comparator of the `listCards` sort step as a boolean "comes no
later than" relation: `lc` models `String.prototype.localeCompare`,
fields `updated` and `created` reverse the comparison. -/
def sortLe (lc : String → String → Ordering) (sortField : String) (a b : JVal) : Bool :=
  let va := jsStr0 (getField a [sortField])
  let vb := jsStr0 (getField b [sortField])
  let reverse := sortField == "updated" || sortField == "created"
  match (if reverse then lc vb va else lc va vb) with
  | .gt => false
  | _ => true

/-- The `cards.sort(...)` step of `listCards`: JavaScript array sort is
stable, modelled by a stable insertion sort. -/
def sortCards (lc : String → String → Ordering) (sortField : String)
    (cards : List JVal) : List JVal :=
  List.insertionSort (fun a b => sortLe lc sortField a b = true) cards

/-- Embedding of `computeStats` from src/client.ts: a status histogram
in first-occurrence key order. -/
def computeStats (cards : List JVal) : JObj :=
  cards.foldl (fun stats card =>
    let status := jsToString (jsCoalesce (getMember card "status") (.str "unknown"))
    let prev : Int := match getK stats status with
      | some (.num n) => n
      | _ => 0
    setK stats status (.num (prev + 1))) []

/-- The query document built by `listCards` around the card filter and
selection fields. -/
def cardsQueryDoc (cardQuery : JObj) (cardFields : List JVal) : JVal :=
  .obj [("_root", .arr [.obj [("account",
    .arr [.obj [(filteredKey "cards" cardQuery, .arr cardFields)]])]])]

/-- Status-parsing step of `listCards`: either a validation error, or
the optional client-side multi-status filter together with the updated
server-side card query. -/
def listCardsStatusStep (o : ListOptions) (cardQuery : JObj) :
    Except String (Option (List String) × JObj) :=
  match o.status with
  | some s =>
      if s ≠ "" then
        match parseMultiValue s VALID_STATUSES "status" with
        | .error e => .error e
        | .ok statuses =>
            if statuses.length = 1 then
              .ok (none, setK cardQuery "status" (.str (statuses.headD "")))
            else .ok (some statuses, cardQuery)
      else .ok (none, cardQuery)
  | none => .ok (none, cardQuery)

/-- Deck-resolution step of `listCards`: resolves a deck name to its id
via `listDecks` (issuing a query) and stores it in the card query; an
unknown deck name is a hard error.  Returns the queries issued by the
step in either case. -/
def listCardsDeckStep (fetch : JVal → JObj) (o : ListOptions) (cardQuery : JObj) :
    Except (String × List JVal) (JObj × List JVal) :=
  match o.deck with
  | some d =>
      if d ≠ "" then
        let (decksResult, qs) := listDecks fetch
        let decks := match getK decksResult "decks" with
          | some (.arr ds) => ds
          | _ => []
        match decks.find? (fun dk =>
            jsToLower (jsStr0 (getMember dk "title")) == jsToLower d) with
        | some deck =>
            (match getMember deck "id" with
             | some v => .ok (setK cardQuery "deckId" v, qs)
             | none => .ok (cardQuery, qs))
        | none => .error ("[ERROR] Deck \x27" ++ d ++ "\x27 not found.", qs)
      else .ok (cardQuery, [])
  | none => .ok (cardQuery, [])

/-- Client-side filter pipeline of `listCards` (status, search, owner,
staleness), in source order.  `parseIso` models `parseIsoTimestamp` on
string input (epoch milliseconds, `none` for an invalid date) and `now`
the current time; the `setDate` cutoff is `now` minus `staleDays` days
of milliseconds. -/
def listCardsFilter (parseIso : String → Option Int) (now : Int)
    (o : ListOptions) (clientStatusFilter : Option (List String))
    (cards0 : List JVal) : List JVal :=
  let cards := match clientStatusFilter with
    | some allowed => cards0.filter (fun c => allowed.contains (jsStr0 (getMember c "status")))
    | none => cards0
  let cards := match o.search with
    | some term0 =>
        if term0 ≠ "" then
          let term := jsToLower term0
          cards.filter (fun c =>
            jsIncludes (jsToLower (jsStr0 (getMember c "title"))) term ||
            jsIncludes (jsToLower (jsStr0 (getMember c "content"))) term)
        else cards
    | none => cards
  let cards := match o.owner with
    | some owner =>
        if owner ≠ "" then
          if owner = "none" then
            cards.filter (fun c => !(match getMember c "assignee" with
              | some a => jsTruthyV a
              | none => false))
          else
            let name := jsToLower owner
            cards.filter (fun c =>
              match getMember c "assignee" with
              | some a => jsTruthyV a && (jsToLower (jsStr0 (getMember a "name")) == name)
              | none => false)
        else cards
    | none => cards
  match o.staleDays with
  | some n =>
      if n ≠ 0 then
        let cutoff := now - n * 86400000
        cards.filter (fun c =>
          match getMember c "lastUpdatedAt" with
          | some (.str ts) =>
              match parseIso ts with
              | some updated => decide (updated < cutoff)
              | none => false
          | _ => false)
      else cards
  | none => cards

/-- Embedding of `CodecksClient.listCards` from src/client.ts.  Returns
the result object (or the thrown error message) together with the list
of queries issued. -/
def listCards (fetch : JVal → JObj) (lc : String → String → Ordering)
    (parseIso : String → Option Int) (now : Int) (o : ListOptions) :
    Except String JObj × List JVal :=
  let cardFields := baseCardFields ++ (if optTruthy o.search then [JVal.str "content"] else [])
  let cardQuery : JObj := [("visibility", .str (if o.archived then "archived" else "default"))]
  match listCardsStatusStep o cardQuery with
  | .error e => (.error e, [])
  | .ok (clientStatusFilter, cardQuery) =>
    match listCardsDeckStep fetch o cardQuery with
    | .error (e, qs) => (.error e, qs)
    | .ok (cardQuery, deckQs) =>
      let q : JVal := cardsQueryDoc cardQuery cardFields
      let result := fetch q
      let cards := extractCards result
      let cards := listCardsFilter parseIso now o clientStatusFilter cards
      let cards := match o.sort with
        | some sortField =>
            if sortField ≠ "" then sortCards lc sortField cards else cards
        | none => cards
      let stats := if o.includeStats then JVal.obj (computeStats cards) else JVal.null
      (.ok [("cards", .arr cards), ("stats", stats), ("count", .num cards.length)],
        deckQs ++ [q])

/-- The options object of `updateCards`.  The fields the method body
never reads (deck, hero, tags, doc) are omitted. -/
structure UpdateOptions where
  cardIds : List String
  status : Option String := none
  priority : Option String := none
  effort : Option String := none
  title : Option String := none
  content : Option String := none
  milestone : Option String := none
  owner : Option String := none
  continueOnError : Bool := false

/-- Model of `parseInt(s, 10)` as used for the effort field: a NaN
result is serialized as null by JSON and modelled as null here. -/
def jsParseInt (s : String) : JVal :=
  match s.toInt? with
  | some n => .num n
  | none => .null

/-- Per-card dispatch payload of `updateCards`: only the explicitly
supplied fields are included, the string "null" clears a field. -/
def updatePayload (o : UpdateOptions) (cardId : String) : JObj :=
  let p : JObj := [("id", .str cardId)]
  let p := match o.status with
    | some s => if s ≠ "" then setK p "status" (.str s) else p
    | none => p
  let p := match o.priority with
    | some s => if s ≠ "" then setK p "priority" (if s = "null" then .null else .str s) else p
    | none => p
  let p := match o.effort with
    | some s => if s ≠ "" then setK p "effort" (if s = "null" then .null else jsParseInt s) else p
    | none => p
  let p := match o.title with
    | some s => if s ≠ "" then setK p "title" (.str s) else p
    | none => p
  let p := match o.content with
    | some s => setK p "content" (.str s)
    | none => p
  let p := match o.milestone with
    | some s => if s ≠ "" then setK p "milestoneId" (if s = "null" then .null else .str s) else p
    | none => p
  match o.owner with
  | some s => if s ≠ "" then setK p "assigneeId" (if s = "null" then .null else .str s) else p
  | none => p

/-- The success entry pushed by `updateCards` for one card. -/
def updateOkEntry (cardId : String) (r : JVal) : JObj :=
  [("card_id", .str cardId), ("ok", .bool true), ("result", r)]

/-- The failure entry pushed by `updateCards` for one card. -/
def updateErrEntry (cardId : String) (msg : String) : JObj :=
  [("card_id", .str cardId), ("ok", .bool false), ("error", .str msg)]

/-- The sequential dispatch loop of `updateCards`: returns the result
entries, the success count, and the dispatched calls, stopping at the
first failure unless `continueOnError` is set. -/
def updateCardsLoop (disp : String → JObj → Except String JVal) (o : UpdateOptions) :
    List String → List JObj × Nat × List (String × JObj)
  | [] => ([], 0, [])
  | cardId :: rest =>
      let payload := updatePayload o cardId
      match disp "cards/update" payload with
      | .ok r =>
          let (results, updated, calls) := updateCardsLoop disp o rest
          (updateOkEntry cardId r :: results, updated + 1, ("cards/update", payload) :: calls)
      | .error msg =>
          if o.continueOnError then
            let (results, updated, calls) := updateCardsLoop disp o rest
            (updateErrEntry cardId msg :: results, updated, ("cards/update", payload) :: calls)
          else
            ([updateErrEntry cardId msg], 0, [("cards/update", payload)])

/-- The result object of `updateCards`. -/
structure UpdateResult where
  ok : Bool
  updated : Nat
  results : List JObj

/-- Embedding of `CodecksClient.updateCards` from src/client.ts:
sequential per-card dispatches, early stop on failure unless
`continueOnError`, overall success flag true iff at least one update
succeeded.  Also returns the dispatched calls in order. -/
def updateCards (disp : String → JObj → Except String JVal) (o : UpdateOptions) :
    UpdateResult × List (String × JObj) :=
  let (results, updated, calls) := updateCardsLoop disp o o.cardIds
  ({ ok := updated > 0, updated := updated, results := results }, calls)

/-- The archive payload of the first `deleteCard` dispatch. -/
def archivePayload (cardId : String) : JObj :=
  [("id", .str cardId), ("visibility", .str "archived")]

/-- The permanent-remove payload of the second `deleteCard` dispatch. -/
def removePayload (cardId : String) : JObj :=
  [("ids", .arr [.str cardId]), ("visibility", .str "deleted"),
   ("deleteFiles", .bool false)]

/-- Embedding of `CodecksClient.deleteCard` from src/client.ts: archive
first, then permanently remove; a failure of either dispatch propagates
as the thrown error.  Also returns the dispatched calls in order. -/
def deleteCard (disp : String → JObj → Except String JVal) (cardId : String) :
    Except String JObj × List (String × JObj) :=
  match disp "cards/update" (archivePayload cardId) with
  | .error e => (.error e, [("cards/update", archivePayload cardId)])
  | .ok _ =>
      match disp "cards/bulkUpdate" (removePayload cardId) with
      | .error e =>
          (.error e,
            [("cards/update", archivePayload cardId),
             ("cards/bulkUpdate", removePayload cardId)])
      | .ok r =>
          (.ok [("ok", .bool true), ("card_id", .str cardId), ("result", r)],
            [("cards/update", archivePayload cardId),
             ("cards/bulkUpdate", removePayload cardId)])

/-- The options object of `createCard`.  The fields the method body
never reads (deck, project, doc, allowDuplicate, parent) are kept only
where call sites supply them; the body uses title, content and
severity. -/
structure CreateCardOptions where
  title : String
  content : Option String := none
  severity : Option String := none
  parent : Option String := none
  doc : Bool := false

/-- Embedding of `CodecksClient.createCard` from src/client.ts: builds
the markdown content and issues one report request (`report` maps the
content and severity to the response).  Returns the result and the
issued report calls. -/
def createCard (report : String → Option String → Except String JObj)
    (o : CreateCardOptions) : Except String JObj × List (String × Option String) :=
  let fullContent := "# " ++ o.title ++ (match o.content with
    | some c => if c ≠ "" then "\n\n" ++ c else ""
    | none => "")
  match report fullContent o.severity with
  | .error e => (.error e, [(fullContent, o.severity)])
  | .ok result =>
      let cardId := jsToString (jsCoalesce (getK result "id")
        (jsCoalesce (getK result "cardId") (.str "unknown")))
      (.ok [("ok", .bool true), ("card_id", .str cardId), ("title", .str o.title)],
        [(fullContent, o.severity)])

/-- The options object of `scaffoldFeature`. -/
structure ScaffoldOptions where
  title : String
  heroDeck : String
  codeDeck : String
  designDeck : String
  artDeck : Option String := none
  skipArt : Bool := false
  audioDeck : Option String := none
  skipAudio : Bool := false
  description : Option String := none
  owner : Option String := none
  priority : Option String := none
  effort : Option Int := none
  allowDuplicate : Bool := false

/-- Per-lane sub-card creation loop of `scaffoldFeature`. -/
def scaffoldLanes (report : String → Option String → Except String JObj)
    (title : String) (heroId : String) :
    List (String × String) → Except String (List JVal) × List (String × Option String)
  | [] => (.ok [], [])
  | (laneName, _laneDeck) :: rest =>
      match createCard report { title := title ++ " - " ++ laneName, parent := some heroId } with
      | (.error e, calls) => (.error e, calls)
      | (.ok sub, calls) =>
          match scaffoldLanes report title heroId rest with
          | (.error e, calls2) => (.error e, calls ++ calls2)
          | (.ok subs, calls2) =>
              (.ok (JVal.obj (objOfDefined
                  [("lane", some (.str laneName)), ("card_id", getK sub "card_id")]) :: subs),
                calls ++ calls2)

/-- Embedding of `CodecksClient.scaffoldFeature` from src/client.ts:
creates the hero card, then one sub-card per lane (Code and Design
always; Art and Audio when a deck is given and not skipped). -/
def scaffoldFeature (report : String → Option String → Except String JObj)
    (o : ScaffoldOptions) : Except String JObj × List (String × Option String) :=
  match createCard report { title := o.title, content := o.description, doc := false } with
  | (.error e, calls) => (.error e, calls)
  | (.ok hero, calls) =>
      let heroId := jsStr0 (getK hero "card_id")
      let lanes := [("Code", o.codeDeck), ("Design", o.designDeck)]
        ++ (if !o.skipArt && optTruthy o.artDeck then [("Art", o.artDeck.getD "")] else [])
        ++ (if !o.skipAudio && optTruthy o.audioDeck then [("Audio", o.audioDeck.getD "")] else [])
      match scaffoldLanes report o.title heroId lanes with
      | (.error e, calls2) => (.error e, calls ++ calls2)
      | (.ok subcards, calls2) =>
          (.ok [("ok", .bool true), ("hero_id", .str heroId),
                ("title", .str o.title), ("subcards", .arr subcards)],
            calls ++ calls2)

/-- The options object of `splitFeatures`. -/
structure SplitOptions where
  deck : String
  codeDeck : String
  designDeck : String
  artDeck : Option String := none
  skipArt : Bool := false
  audioDeck : Option String := none
  skipAudio : Bool := false
  priority : Option String := none
  dryRun : Bool := false

/-- The un-split feature test of `splitFeatures`: no child-card info, a
falsy one, or a child count (strictly) equal to zero. -/
def isUnsplitFeature (c : JVal) : Bool :=
  match getMember c "childCardInfo" with
  | none => true
  | some info =>
      if jsTruthyV info then
        match jsCoalesce (getMember info "count") (.num 0) with
        | .num 0 => true
        | _ => false
      else true

/-- Discovery step of `splitFeatures`: the cards of a `listCards`
result that are still un-split features. -/
def discoveredFeatures (all : JObj) : List JVal :=
  (match getK all "cards" with
   | some (.arr cs) => cs
   | _ => []).filter isUnsplitFeature

/-- The result object of the `splitFeatures` dry-run branch. -/
def dryRunPayload (features : List JVal) : JObj :=
  [("ok", .bool true), ("dry_run", .bool true),
   ("features_found", .num features.length),
   ("features", .arr (features.map (fun f => .obj (objOfDefined
      [("id", getMember f "id"), ("title", getMember f "title")]))))]

/-- Per-feature scaffold loop of `splitFeatures`: collects success and
failure details without aborting, counting processed features. -/
def splitLoop (report : String → Option String → Except String JObj)
    (o : SplitOptions) :
    List JVal → (Nat × List JVal) × List (String × Option String)
  | [] => ((0, []), [])
  | feature :: rest =>
      let r := scaffoldFeature report
        { title := jsToStringU (getMember feature "title")
        , heroDeck := o.deck, codeDeck := o.codeDeck, designDeck := o.designDeck
        , artDeck := o.artDeck, skipArt := o.skipArt
        , audioDeck := o.audioDeck, skipAudio := o.skipAudio
        , priority := o.priority }
      match r with
      | (.ok result, calls) =>
          let ((processed, details), calls2) := splitLoop report o rest
          ((processed + 1, JVal.obj result :: details), calls ++ calls2)
      | (.error e, calls) =>
          let ((processed, details), calls2) := splitLoop report o rest
          ((processed, JVal.obj (objOfDefined
              [("ok", some (.bool false)), ("title", getMember feature "title"),
               ("error", some (.str e))]) :: details), calls ++ calls2)

/-- Embedding of `CodecksClient.splitFeatures` from src/client.ts:
lists the deck, filters for un-split features, and either reports them
(dry run) or scaffolds each one.  Returns the result, the issued
queries, and the issued mutating report calls. -/
def splitFeatures (fetch : JVal → JObj) (lc : String → String → Ordering)
    (parseIso : String → Option Int) (now : Int)
    (report : String → Option String → Except String JObj) (o : SplitOptions) :
    Except String JObj × List JVal × List (String × Option String) :=
  match listCards fetch lc parseIso now { deck := some o.deck } with
  | (.error e, qs) => (.error e, qs, [])
  | (.ok all, qs) =>
      let features := discoveredFeatures all
      if o.dryRun then
        (.ok (dryRunPayload features), qs, [])
      else
        let ((processed, details), calls) := splitLoop report o features
        (.ok [("ok", .bool true), ("features_processed", .num processed),
              ("features_skipped", .num ((features.length : Int) - (processed : Int))),
              ("details", .arr details)], qs, calls)

/-
Object-access lemmas.
-/

theorem getK_cons (a : String × JVal) (p : JObj) (k : String) :
    getK (a :: p) k = if (a.1 == k) = true then some a.2 else getK p k := by
  by_cases h : (a.1 == k) = true <;> simp [getK, List.find?_cons, h]

theorem getK_replace_self (p : JObj) (k : String) (v : JVal) (h : hasK p k = true) :
    getK (p.map (fun kv => if kv.1 == k then (k, v) else kv)) k = some v := by
  induction p with
  | nil => simp [hasK] at h
  | cons a p ih =>
      rw [List.map_cons, getK_cons]
      by_cases ha : (a.1 == k) = true
      · have hfa : (if a.1 == k then (k, v) else a) = (k, v) := by rw [if_pos ha]
        rw [hfa, if_pos (beq_self_eq_true k)]
      · have hfa : (if a.1 == k then (k, v) else a) = a := by
          rw [if_neg (by simpa using ha)]
        have h' : hasK p k = true := by
          rw [hasK, List.any_cons] at h
          rcases Bool.or_eq_true_iff.mp h with hc | hc
          · exact absurd hc ha
          · exact hc
        rw [hfa, if_neg (by simpa using ha), ih h']

theorem getK_append_single_self (p : JObj) (k : String) (v : JVal)
    (h : hasK p k = false) :
    getK (p ++ [(k, v)]) k = some v := by
  induction p with
  | nil => rw [List.nil_append, getK_cons, if_pos (beq_self_eq_true k)]
  | cons a p ih =>
      rw [hasK, List.any_cons] at h
      have ha : (a.1 == k) = false := (Bool.or_eq_false_iff.mp h).1
      have h' : hasK p k = false := by
        rw [hasK]
        exact (Bool.or_eq_false_iff.mp h).2
      rw [List.cons_append, getK_cons, if_neg (by simp [ha]), ih h']

theorem getK_setK_self (p : JObj) (k : String) (v : JVal) :
    getK (setK p k v) k = some v := by
  unfold setK
  split_ifs with h
  · exact getK_replace_self p k v h
  · exact getK_append_single_self p k v (by simpa using h)

theorem getK_replace_ne (p : JObj) (k k' : String) (v : JVal) (h : k' ≠ k) :
    getK (p.map (fun kv => if kv.1 == k then (k, v) else kv)) k' = getK p k' := by
  induction p with
  | nil => rfl
  | cons a p ih =>
      rw [List.map_cons, getK_cons, getK_cons]
      by_cases ha : (a.1 == k) = true
      · have hak : a.1 = k := by simpa using ha
        have hfa : (if a.1 == k then (k, v) else a) = (k, v) := by rw [if_pos ha]
        have h1 : ((k, v).1 == k') = false := by simpa using (Ne.symm h)
        have h2 : (a.1 == k') = false := by rw [hak]; simpa using (Ne.symm h)
        rw [hfa, if_neg (by simp [h1]), if_neg (by simp [h2]), ih]
      · have hfa : (if a.1 == k then (k, v) else a) = a := by
          rw [if_neg (by simpa using ha)]
        rw [hfa]
        by_cases hb : (a.1 == k') = true
        · rw [if_pos hb, if_pos hb]
        · rw [if_neg (by simpa using hb), if_neg (by simpa using hb), ih]

theorem getK_append_single_ne (p : JObj) (k k' : String) (v : JVal) (h : k' ≠ k) :
    getK (p ++ [(k, v)]) k' = getK p k' := by
  induction p with
  | nil =>
      have h1 : ((k, v).1 == k') = false := by simpa using (Ne.symm h)
      rw [List.nil_append, getK_cons, if_neg (by simp [h1])]
  | cons a p ih =>
      rw [List.cons_append, getK_cons, getK_cons]
      by_cases hb : (a.1 == k') = true
      · rw [if_pos hb, if_pos hb]
      · rw [if_neg (by simpa using hb), if_neg (by simpa using hb), ih]

theorem getK_setK_ne (p : JObj) (k k' : String) (v : JVal) (h : k' ≠ k) :
    getK (setK p k v) k' = getK p k' := by
  unfold setK
  split_ifs with hK
  · exact getK_replace_ne p k k' v h
  · exact getK_append_single_ne p k k' v h

/-
C3.
-/

/-- C3: identifier validation accepts a string, returning it unchanged,
exactly when it has length 36 and exactly 4 hyphens; any other string
yields a validation error.  In particular the hyphenated 36-character
example passes while the short and the unhyphenated variants fail. -/
theorem validateUuid_length_and_hyphens :
    (∀ s field : String,
      (validateUuid s field = .ok s ↔ (s.length = 36 ∧ hyphenCount s = 4))
      ∧ (¬(s.length = 36 ∧ hyphenCount s = 4) →
          ∃ e, validateUuid s field = .error e))
    ∧ validateUuid "12345678-1234-1234-1234-123456789012" "card_id"
        = .ok "12345678-1234-1234-1234-123456789012"
    ∧ (∃ e, validateUuid "12345678" "card_id" = .error e)
    ∧ (∃ e, validateUuid "12345678123412341234123456789012" "card_id" = .error e) := by
  have main : ∀ s field : String,
      (validateUuid s field = .ok s ↔ (s.length = 36 ∧ hyphenCount s = 4))
      ∧ (¬(s.length = 36 ∧ hyphenCount s = 4) →
          ∃ e, validateUuid s field = .error e) := by
    intro s field
    unfold validateUuid
    split_ifs with h
    · push_neg at h
      constructor
      · constructor
        · intro hk; exact absurd hk (by simp)
        · intro ⟨h1, h2⟩
          rcases h with h | h
          · exact absurd h1 h
          · exact absurd h2 h
      · intro _; exact ⟨_, rfl⟩
    · push_neg at h
      constructor
      · constructor
        · intro _; exact ⟨h.1, h.2⟩
        · intro _; rfl
      · intro hc; exact absurd ⟨h.1, h.2⟩ hc
  refine ⟨main, ?_, ?_, ?_⟩
  · exact (main _ "card_id").1.mpr (by decide)
  · exact (main _ "card_id").2 (by decide)
  · exact (main _ "card_id").2 (by decide)

/-- C3 witness: the general characterization applied at the three
concrete example identifiers. -/
theorem validateUuid_length_and_hyphens_witness :
    validateUuid "12345678-1234-1234-1234-123456789012" "card_id"
      = .ok "12345678-1234-1234-1234-123456789012"
    ∧ (∃ e, validateUuid "12345678" "card_id" = .error e) :=
  ⟨(validateUuid_length_and_hyphens.1
      "12345678-1234-1234-1234-123456789012" "card_id").1.mpr (by decide),
   (validateUuid_length_and_hyphens.1 "12345678" "card_id").2 (by decide)⟩

/-
C10.
-/

/-- C10: a batch update over an empty card-id list issues no dispatch
calls and returns ok = false, updated = 0 and an empty results list. -/
theorem updateCards_empty_batch :
    ∀ (disp : String → JObj → Except String JVal) (o : UpdateOptions),
      o.cardIds = [] →
      updateCards disp o = ({ ok := false, updated := 0, results := [] }, []) := by
  intro disp o h
  simp [updateCards, h, updateCardsLoop]

/-- C10 witness: the empty batch evaluated at a concrete dispatcher. -/
theorem updateCards_empty_batch_witness :
    updateCards (fun _ _ => Except.ok JVal.null) { cardIds := [] }
      = ({ ok := false, updated := 0, results := [] }, []) :=
  updateCards_empty_batch (fun _ _ => Except.ok JVal.null) { cardIds := [] } rfl

/-
C4.
-/

/-- C4: for a batch over ids A, B, C where the dispatch for A succeeds,
the one for B fails and continueOnError is off, the updates are
dispatched sequentially, the result reports updated = 1 with a success
entry for A and a failure entry carrying the message for B, no dispatch
is issued for C, and in general the overall ok flag is true exactly
when at least one update succeeded. -/
theorem updateCards_stops_at_first_failure :
    (∀ (disp : String → JObj → Except String JVal) (o : UpdateOptions)
        (A B C : String) (rA : JVal) (msg : String),
      o.cardIds = [A, B, C] →
      o.continueOnError = false →
      disp "cards/update" (updatePayload o A) = .ok rA →
      disp "cards/update" (updatePayload o B) = .error msg →
      updateCards disp o =
        ({ ok := true, updated := 1,
           results := [updateOkEntry A rA, updateErrEntry B msg] },
         [("cards/update", updatePayload o A), ("cards/update", updatePayload o B)]))
    ∧ (∀ (disp : String → JObj → Except String JVal) (o : UpdateOptions),
        (updateCards disp o).1.ok = true ↔ 0 < (updateCards disp o).1.updated) := by
  constructor
  · intro disp o A B C rA msg hids hcoe hA hB
    simp [updateCards, hids, updateCardsLoop, hA, hB, hcoe]
  · intro disp o
    simp [updateCards]

/-- C4 witness: a concrete dispatcher failing exactly on card id b. -/
theorem updateCards_stops_at_first_failure_witness :
    (updateCards
      (fun _ p => match getK p "id" with
        | some (.str "b") => Except.error "boom"
        | _ => Except.ok JVal.null)
      { cardIds := ["a", "b", "c"] }
      = ({ ok := true, updated := 1,
           results := [updateOkEntry "a" JVal.null, updateErrEntry "b" "boom"] },
         [("cards/update", updatePayload { cardIds := ["a", "b", "c"] } "a"),
          ("cards/update", updatePayload { cardIds := ["a", "b", "c"] } "b")]))
    ∧ ((updateCards (fun _ _ => Except.ok JVal.null) { cardIds := ["a"] }).1.ok = true
        ↔ 0 < (updateCards (fun _ _ => Except.ok JVal.null) { cardIds := ["a"] }).1.updated) :=
  ⟨updateCards_stops_at_first_failure.1
      (fun _ p => match getK p "id" with
        | some (.str "b") => Except.error "boom"
        | _ => Except.ok JVal.null)
      { cardIds := ["a", "b", "c"] } "a" "b" "c" JVal.null "boom" rfl rfl rfl rfl,
   updateCards_stops_at_first_failure.2 (fun _ _ => Except.ok JVal.null) { cardIds := ["a"] }⟩

/-
C7.
-/

/-- C7: deleting a card always dispatches the archive call first; the
permanent-remove call is dispatched second exactly when the archive
succeeded; and when the remove call fails after a successful archive,
the error propagates and the operation does not return a success
result. -/
theorem deleteCard_archive_then_remove :
    ∀ (disp : String → JObj → Except String JVal) (cardId : String),
      ((deleteCard disp cardId).2 = [("cards/update", archivePayload cardId)]
        ∨ (deleteCard disp cardId).2 =
            [("cards/update", archivePayload cardId),
             ("cards/bulkUpdate", removePayload cardId)])
      ∧ (∀ r, disp "cards/update" (archivePayload cardId) = .ok r →
          (deleteCard disp cardId).2 =
            [("cards/update", archivePayload cardId),
             ("cards/bulkUpdate", removePayload cardId)])
      ∧ (∀ r e, disp "cards/update" (archivePayload cardId) = .ok r →
          disp "cards/bulkUpdate" (removePayload cardId) = .error e →
          (deleteCard disp cardId).1 = .error e) := by
  intro disp cardId
  refine ⟨?_, ?_, ?_⟩
  · unfold deleteCard
    cases h1 : disp "cards/update" (archivePayload cardId) with
    | error e => simp
    | ok r =>
        cases h2 : disp "cards/bulkUpdate" (removePayload cardId) with
        | error e => simp
        | ok r2 => simp
  · intro r h1
    unfold deleteCard
    rw [h1]
    cases h2 : disp "cards/bulkUpdate" (removePayload cardId) with
    | error e => simp
    | ok r2 => simp
  · intro r e h1 h2
    unfold deleteCard
    rw [h1, h2]

/-- C7 witness: a dispatcher whose bulk-update endpoint fails. -/
theorem deleteCard_archive_then_remove_witness :
    ((deleteCard
        (fun path _ => if path = "cards/bulkUpdate" then Except.error "late failure"
          else Except.ok JVal.null) "card-1").2 =
      [("cards/update", archivePayload "card-1")]
      ∨ (deleteCard
        (fun path _ => if path = "cards/bulkUpdate" then Except.error "late failure"
          else Except.ok JVal.null) "card-1").2 =
      [("cards/update", archivePayload "card-1"),
       ("cards/bulkUpdate", removePayload "card-1")])
    ∧ (deleteCard
        (fun path _ => if path = "cards/bulkUpdate" then Except.error "late failure"
          else Except.ok JVal.null) "card-1").1 = .error "late failure" :=
  ⟨(deleteCard_archive_then_remove
      (fun path _ => if path = "cards/bulkUpdate" then Except.error "late failure"
        else Except.ok JVal.null) "card-1").1,
   (deleteCard_archive_then_remove
      (fun path _ => if path = "cards/bulkUpdate" then Except.error "late failure"
        else Except.ok JVal.null) "card-1").2.2 JVal.null "late failure" rfl rfl⟩

/-
C8.
-/

/-- C8 fails on the code: re-sanitizing an already sanitized card nests
the user-data boundary markers instead of keeping a single pair.  This
evaluates the sanitizer twice at a concrete card (with a detector that
reports no findings, as for this text) and exhibits the nested
markers. -/
theorem sanitizeCard_double_wraps :
    sanitizeCard (fun _ => [])
        (sanitizeCard (fun _ => []) [("title", .str "Sprint planning notes")])
      = [("title",
          .str "[USER_DATA][USER_DATA]Sprint planning notes[/USER_DATA][/USER_DATA]")]
    ∧ sanitizeCard (fun _ => []) [("title", .str "Sprint planning notes")]
      = [("title", .str "[USER_DATA]Sprint planning notes[/USER_DATA]")]
    ∧ "[USER_DATA][USER_DATA]Sprint planning notes[/USER_DATA][/USER_DATA]"
      ≠ "[USER_DATA]Sprint planning notes[/USER_DATA]" := by
  refine ⟨rfl, rfl, by decide⟩


/-
C1.
-/

/-- Outcomes after which `httpRequest` is willing to schedule another
attempt: a retryable HTTP status, a timeout, or a connection failure. -/
def retryEligible (a : AttemptOutcome) : Prop :=
  match a with
  | .http status _ => RETRYABLE_HTTP_CODES.contains status = true
  | .timeout => True
  | .connError _ => True

theorem httpLoop_attempts_le (idempotent : Bool) (maxBytes : Nat)
    (parseJson : String → Option JVal) (outcomes : Nat → AttemptOutcome) :
    ∀ (fuel attempt : Nat),
      (httpLoop idempotent maxBytes parseJson outcomes attempt fuel).2 ≤ fuel := by
  intro fuel
  induction fuel with
  | zero => intro attempt; simp [httpLoop]
  | succ f ih =>
      intro attempt
      unfold httpLoop
      split
      · split
        · split
          · show (1 : Nat) ≤ f + 1
            omega
          · split
            · show (1 : Nat) ≤ f + 1
              omega
            · show (1 : Nat) ≤ f + 1
              omega
        · split
          · show (httpLoop idempotent maxBytes parseJson outcomes (attempt + 1) f).2 + 1
              ≤ f + 1
            exact Nat.succ_le_succ (ih (attempt + 1))
          · show (1 : Nat) ≤ f + 1
            omega
      · split
        · show (httpLoop idempotent maxBytes parseJson outcomes (attempt + 1) f).2 + 1
            ≤ f + 1
          exact Nat.succ_le_succ (ih (attempt + 1))
        · show (1 : Nat) ≤ f + 1
          omega
      · split
        · show (httpLoop idempotent maxBytes parseJson outcomes (attempt + 1) f).2 + 1
            ≤ f + 1
          exact Nat.succ_le_succ (ih (attempt + 1))
        · show (1 : Nat) ≤ f + 1
          omega

theorem httpLoop_retries_only_eligible (idempotent : Bool) (maxBytes : Nat)
    (parseJson : String → Option JVal) (outcomes : Nat → AttemptOutcome) :
    ∀ (fuel attempt i : Nat),
      i + 1 < (httpLoop idempotent maxBytes parseJson outcomes attempt fuel).2 →
      retryEligible (outcomes (attempt + i)) := by
  intro fuel
  induction fuel with
  | zero => intro attempt i h; simp [httpLoop] at h
  | succ f ih =>
      intro attempt i h
      unfold httpLoop at h
      split at h
      · -- http response
        rename_i status body ho
        split at h
        · split at h
          · have h1 : i + 1 < 1 := h
            exact absurd h1 (by omega)
          · split at h
            · have h1 : i + 1 < 1 := h
              exact absurd h1 (by omega)
            · have h1 : i + 1 < 1 := h
              exact absurd h1 (by omega)
        · split at h
          · rename_i hcond
            have h2 : i + 1 <
                (httpLoop idempotent maxBytes parseJson outcomes (attempt + 1) f).2 + 1 := h
            cases i with
            | zero =>
                have hc : RETRYABLE_HTTP_CODES.contains status = true :=
                  (Bool.and_eq_true_iff.mp hcond).2
                rw [Nat.add_zero, ho]
                exact hc
            | succ j =>
                have hj : j + 1 <
                    (httpLoop idempotent maxBytes parseJson outcomes (attempt + 1) f).2 := by
                  omega
                have hres := ih (attempt + 1) j hj
                rw [show attempt + (j + 1) = attempt + 1 + j by omega]
                exact hres
          · have h1 : i + 1 < 1 := h
            exact absurd h1 (by omega)
      · -- timeout
        rename_i ho
        split at h
        · have h2 : i + 1 <
              (httpLoop idempotent maxBytes parseJson outcomes (attempt + 1) f).2 + 1 := h
          cases i with
          | zero =>
              rw [Nat.add_zero, ho]
              trivial
          | succ j =>
              have hj : j + 1 <
                  (httpLoop idempotent maxBytes parseJson outcomes (attempt + 1) f).2 := by
                omega
              have hres := ih (attempt + 1) j hj
              rw [show attempt + (j + 1) = attempt + 1 + j by omega]
              exact hres
        · have h1 : i + 1 < 1 := h
          exact absurd h1 (by omega)
      · -- connection error
        rename_i msg ho
        split at h
        · have h2 : i + 1 <
              (httpLoop idempotent maxBytes parseJson outcomes (attempt + 1) f).2 + 1 := h
          cases i with
          | zero =>
              rw [Nat.add_zero, ho]
              trivial
          | succ j =>
              have hj : j + 1 <
                  (httpLoop idempotent maxBytes parseJson outcomes (attempt + 1) f).2 := by
                omega
              have hres := ih (attempt + 1) j hj
              rw [show attempt + (j + 1) = attempt + 1 + j by omega]
              exact hres
        · have h1 : i + 1 < 1 := h
          exact absurd h1 (by omega)

/-- C1: a non-idempotent call is attempted exactly once regardless of
the outcome; an idempotent call is re-attempted only after a retryable
HTTP status (429, 502, 503, 504), a timeout, or a connection failure,
within an attempt budget of 1 plus the configured retry count; and an
idempotent call configured for 2 retries that sees 503, 503, then a 200
with a well-formed body succeeds on the third attempt. -/
theorem httpRequest_retry_policy :
    (∀ (retries : Int) (maxBytes : Nat) (parseJson : String → Option JVal)
        (outcomes : Nat → AttemptOutcome),
      (httpRequest false retries maxBytes parseJson outcomes).2 = 1)
    ∧ (∀ (retries : Int) (maxBytes : Nat) (parseJson : String → Option JVal)
        (outcomes : Nat → AttemptOutcome),
      (httpRequest true retries maxBytes parseJson outcomes).2 ≤ 1 + (max 0 retries).toNat
      ∧ ∀ i, i + 1 < (httpRequest true retries maxBytes parseJson outcomes).2 →
          retryEligible (outcomes i))
    ∧ (∀ (maxBytes : Nat) (parseJson : String → Option JVal)
        (outcomes : Nat → AttemptOutcome) (b0 b1 body : String) (v : JVal),
      outcomes 0 = .http 503 b0 →
      outcomes 1 = .http 503 b1 →
      outcomes 2 = .http 200 body →
      parseJson body = some v →
      body.length ≤ maxBytes →
      httpRequest true 2 maxBytes parseJson outcomes = (.ok v, 3)) := by
  refine ⟨?_, ?_, ?_⟩
  · intro retries maxBytes parseJson outcomes
    show (httpLoop false maxBytes parseJson outcomes 0 (maxAttempts false retries)).2 = 1
    have hma : maxAttempts false retries = 1 := by simp [maxAttempts]
    rw [hma]
    unfold httpLoop
    split
    · split
      · split
        · rfl
        · split
          · rfl
          · rfl
      · split
        · rename_i hcond
          simp at hcond
        · rfl
    · split
      · rename_i hcond
        simp at hcond
      · rfl
    · split
      · rename_i hcond
        simp at hcond
      · rfl
  · intro retries maxBytes parseJson outcomes
    constructor
    · have hle := httpLoop_attempts_le true maxBytes parseJson outcomes
        (maxAttempts true retries) 0
      simpa [maxAttempts] using hle
    · intro i h
      have hres := httpLoop_retries_only_eligible true maxBytes parseJson outcomes
        (maxAttempts true retries) 0 i h
      simpa using hres
  · intro maxBytes parseJson outcomes b0 b1 body v h0 h1 h2 hp hlen
    have hnotbig : ¬(body.length > maxBytes) := by omega
    show (httpLoop true maxBytes parseJson outcomes 0 (maxAttempts true 2)) = (.ok v, 3)
    have hma : maxAttempts true 2 = 3 := by simp [maxAttempts]
    rw [hma]
    unfold httpLoop
    rw [h0]
    simp +decide only [responseOk, RETRYABLE_HTTP_CODES, List.contains_cons]
    unfold httpLoop
    rw [h1]
    simp +decide only [responseOk, RETRYABLE_HTTP_CODES, List.contains_cons]
    unfold httpLoop
    rw [h2]
    simp +decide [responseOk, hnotbig, hp]

/-- C1 witness: the retry policy applied at a concrete outcome sequence
503, 503, 200 with a trivial JSON parser and the default byte ceiling,
discharging every hypothesis concretely. -/
theorem httpRequest_retry_policy_witness :
    (httpRequest false 2 5000000 (fun _ => some JVal.null)
        (fun i => if i = 0 then .http 503 "" else if i = 1 then .http 503 ""
          else .http 200 "")).2 = 1
    ∧ httpRequest true 2 5000000 (fun _ => some JVal.null)
        (fun i => if i = 0 then .http 503 "" else if i = 1 then .http 503 ""
          else .http 200 "")
        = (.ok JVal.null, 3)
    ∧ retryEligible ((fun i => if i = 0 then AttemptOutcome.http 503 ""
        else if i = 1 then AttemptOutcome.http 503 "" else AttemptOutcome.http 200 "") 0) := by
  refine ⟨?_, ?_, ?_⟩
  · exact httpRequest_retry_policy.1 2 5000000 (fun _ => some JVal.null) _
  · exact httpRequest_retry_policy.2.2 5000000 (fun _ => some JVal.null)
      (fun i => if i = 0 then .http 503 "" else if i = 1 then .http 503 ""
        else .http 200 "")
      "" "" "" JVal.null rfl rfl rfl rfl (by decide)
  · refine (httpRequest_retry_policy.2.1 2 5000000 (fun _ => some JVal.null)
      (fun i => if i = 0 then .http 503 "" else if i = 1 then .http 503 ""
        else .http 200 "")).2 0 ?_
    have hr := httpRequest_retry_policy.2.2 5000000 (fun _ => some JVal.null)
      (fun i => if i = 0 then .http 503 "" else if i = 1 then .http 503 ""
        else .http 200 "")
      "" "" "" JVal.null rfl rfl rfl rfl (by decide)
    rw [hr]
    omega

/-
C2.
-/

/-- The string that `ensureContractDict` ends up storing in `error`
(and in the backfilled detail) for an error payload. -/
def coercedMsg (p : JObj) : String :=
  match getK p "error" with
  | some (.str s) => s
  | other => jsToStringU other

theorem coercedMsg_congr (p q : JObj) (h : getK p "error" = getK q "error") :
    coercedMsg p = coercedMsg q := by
  unfold coercedMsg
  rw [h]

theorem esv_other (p : JObj) (k : String) (h : k ≠ "schema_version") :
    getK (ensureSchemaVersion p) k = getK p k := by
  unfold ensureSchemaVersion
  split_ifs with hc
  · exact getK_setK_ne p _ k _ h
  · rfl

theorem esv_nonnull (p : JObj) :
    jsNullish (getK (ensureSchemaVersion p) "schema_version") = false := by
  unfold ensureSchemaVersion
  split_ifs with hc
  · rw [getK_setK_self]
    rfl
  · simpa using hc

theorem esv_id (p : JObj) (h : jsNullish (getK p "schema_version") = false) :
    ensureSchemaVersion p = p := by
  unfold ensureSchemaVersion
  rw [if_neg (by simp [h])]

theorem cem_other (p : JObj) (k : String) (h : k ≠ "error") :
    getK (coerceErrorMessage p) k = getK p k := by
  unfold coerceErrorMessage
  cases hv : getK p "error" with
  | none => exact getK_setK_ne p _ k _ h
  | some v =>
      cases v with
      | str s => rfl
      | null => exact getK_setK_ne p _ k _ h
      | bool b => exact getK_setK_ne p _ k _ h
      | num n => exact getK_setK_ne p _ k _ h
      | arr xs => exact getK_setK_ne p _ k _ h
      | obj fields => exact getK_setK_ne p _ k _ h

theorem cem_error_str (p : JObj) :
    getK (coerceErrorMessage p) "error" = some (.str (coercedMsg p)) := by
  unfold coerceErrorMessage coercedMsg
  cases hv : getK p "error" with
  | none => rw [getK_setK_self]
  | some v =>
      cases v with
      | str s => exact hv
      | null => rw [getK_setK_self]
      | bool b => rw [getK_setK_self]
      | num n => rw [getK_setK_self]
      | arr xs => rw [getK_setK_self]
      | obj fields => rw [getK_setK_self]

theorem cem_id (p : JObj) (s : String) (h : getK p "error" = some (.str s)) :
    coerceErrorMessage p = p := by
  unfold coerceErrorMessage
  rw [h]

theorem eed_other (p : JObj) (k : String) (h : k ≠ "error_detail") :
    getK (ensureErrorDetail p) k = getK p k := by
  unfold ensureErrorDetail
  split_ifs with hc
  · exact getK_setK_ne p _ k _ h
  · rfl

theorem eed_nonnull (p : JObj) :
    jsNullish (getK (ensureErrorDetail p) "error_detail") = false := by
  unfold ensureErrorDetail
  split_ifs with hc
  · rw [getK_setK_self]
    rfl
  · simpa using hc

theorem eed_id (p : JObj) (h : jsNullish (getK p "error_detail") = false) :
    ensureErrorDetail p = p := by
  unfold ensureErrorDetail
  rw [if_neg (by simp [h])]

theorem ensureContractDict_eq (p : JObj) :
    ensureContractDict p =
      (if isFalseV (getK (ensureSchemaVersion p) "ok") = true then
        ensureErrorDetail (coerceErrorMessage (ensureSchemaVersion p))
      else if jsNullish (getK (ensureSchemaVersion p) "ok") = true then
        setK (ensureSchemaVersion p) "ok" (.bool true)
      else ensureSchemaVersion p) := rfl

theorem ecd_sv_nonnull (p : JObj) :
    jsNullish (getK (ensureContractDict p) "schema_version") = false := by
  rw [ensureContractDict_eq]
  split_ifs with h1 h2
  · rw [eed_other _ _ (by decide), cem_other _ _ (by decide)]
    exact esv_nonnull p
  · rw [getK_setK_ne _ _ _ _ (by decide)]
    exact esv_nonnull p
  · exact esv_nonnull p

theorem ecd_ok_cases (p : JObj) :
    (isFalseV (getK (ensureSchemaVersion p) "ok") = true ∧
      ensureContractDict p = ensureErrorDetail (coerceErrorMessage (ensureSchemaVersion p)))
    ∨ (isFalseV (getK (ensureSchemaVersion p) "ok") = false ∧
        jsNullish (getK (ensureSchemaVersion p) "ok") = true ∧
        ensureContractDict p = setK (ensureSchemaVersion p) "ok" (.bool true))
    ∨ (isFalseV (getK (ensureSchemaVersion p) "ok") = false ∧
        jsNullish (getK (ensureSchemaVersion p) "ok") = false ∧
        ensureContractDict p = ensureSchemaVersion p) := by
  rw [ensureContractDict_eq]
  split_ifs with h1 h2
  · exact Or.inl ⟨h1, rfl⟩
  · exact Or.inr (Or.inl ⟨by simpa using h1, h2, rfl⟩)
  · exact Or.inr (Or.inr ⟨by simpa using h1, by simpa using h2, rfl⟩)

theorem ecd_idem (p : JObj) :
    ensureContractDict (ensureContractDict p) = ensureContractDict p := by
  rcases ecd_ok_cases p with ⟨hok, heq⟩ | ⟨hok, hnull, heq⟩ | ⟨hok, hnull, heq⟩
  · -- error branch: the result carries ok = false, a string error and a
    -- non-null error_detail, so the second pass changes nothing
    have hq_sv : jsNullish (getK (ensureContractDict p) "schema_version") = false :=
      ecd_sv_nonnull p
    have hq_ok : isFalseV (getK (ensureContractDict p) "ok") = true := by
      rw [heq, eed_other _ _ (by decide), cem_other _ _ (by decide)]
      exact hok
    have hq_err : getK (ensureContractDict p) "error"
        = some (.str (coercedMsg (ensureSchemaVersion p))) := by
      rw [heq, eed_other _ _ (by decide)]
      exact cem_error_str (ensureSchemaVersion p)
    have hq_ed : jsNullish (getK (ensureContractDict p) "error_detail") = false := by
      rw [heq]
      exact eed_nonnull _
    rw [ensureContractDict_eq (ensureContractDict p), esv_id _ hq_sv, if_pos hq_ok,
      cem_id _ _ hq_err, eed_id _ hq_ed]
  · -- success branch where ok was missing or null: the result has ok = true
    have hq_sv : jsNullish (getK (ensureContractDict p) "schema_version") = false :=
      ecd_sv_nonnull p
    have hq_ok : getK (ensureContractDict p) "ok" = some (.bool true) := by
      rw [heq]
      exact getK_setK_self _ _ _
    rw [ensureContractDict_eq (ensureContractDict p), esv_id _ hq_sv,
      if_neg (by rw [hq_ok]; simp [isFalseV]),
      if_neg (by rw [hq_ok]; simp [jsNullish])]
  · -- success branch where ok was already a non-false, non-null value
    have hq_sv : jsNullish (getK (ensureContractDict p) "schema_version") = false :=
      ecd_sv_nonnull p
    have hq_ok1 : isFalseV (getK (ensureContractDict p) "ok") = false := by
      rw [heq]; exact hok
    have hq_ok2 : jsNullish (getK (ensureContractDict p) "ok") = false := by
      rw [heq]; exact hnull
    rw [ensureContractDict_eq (ensureContractDict p), esv_id _ hq_sv,
      if_neg (by simp [hq_ok1]), if_neg (by simp [hq_ok2])]

theorem jsNullish_eq_false_of (v : JVal) (hv : v ≠ .null) :
    jsNullish (some v) = false := by
  cases v with
  | null => exact absurd rfl hv
  | bool b => rfl
  | num n => rfl
  | str s => rfl
  | arr xs => rfl
  | obj fields => rfl

theorem ecd_getK_sv (p : JObj) :
    getK (ensureContractDict p) "schema_version"
      = getK (ensureSchemaVersion p) "schema_version" := by
  rcases ecd_ok_cases p with ⟨hf, heq⟩ | ⟨hf, hn, heq⟩ | ⟨hf, hn, heq⟩
  · rw [heq, eed_other _ _ (by decide), cem_other _ _ (by decide)]
  · rw [heq, getK_setK_ne _ _ _ _ (by decide)]
  · rw [heq]

theorem ecd_sv_absent (p : JObj) (h : getK p "schema_version" = none) :
    getK (ensureContractDict p) "schema_version"
      = some (.str CONTRACT_SCHEMA_VERSION) := by
  have h1 : ensureSchemaVersion p = setK p "schema_version" (.str CONTRACT_SCHEMA_VERSION) := by
    unfold ensureSchemaVersion
    rw [h]
    rfl
  rw [ecd_getK_sv, h1, getK_setK_self]

theorem ecd_sv_present (p : JObj) (v : JVal) (h : getK p "schema_version" = some v)
    (hv : v ≠ .null) :
    getK (ensureContractDict p) "schema_version" = some v := by
  have h1 : ensureSchemaVersion p = p :=
    esv_id p (by rw [h]; exact jsNullish_eq_false_of v hv)
  rw [ecd_getK_sv, h1, h]

theorem ecd_ok_absent (p : JObj) (h : getK p "ok" = none) :
    getK (ensureContractDict p) "ok" = some (.bool true) := by
  have hoo : getK (ensureSchemaVersion p) "ok" = getK p "ok" :=
    esv_other p "ok" (by decide)
  rcases ecd_ok_cases p with ⟨hf, heq⟩ | ⟨hf, hn, heq⟩ | ⟨hf, hn, heq⟩
  · rw [hoo, h] at hf
    simp [isFalseV] at hf
  · rw [heq, getK_setK_self]
  · rw [hoo, h] at hn
    simp [jsNullish] at hn

theorem ecd_ok_present (p : JObj) (v : JVal) (h : getK p "ok" = some v)
    (hv : v ≠ .null) :
    getK (ensureContractDict p) "ok" = some v := by
  have hoo : getK (ensureSchemaVersion p) "ok" = getK p "ok" :=
    esv_other p "ok" (by decide)
  rcases ecd_ok_cases p with ⟨hf, heq⟩ | ⟨hf, hn, heq⟩ | ⟨hf, hn, heq⟩
  · rw [heq, eed_other _ _ (by decide), cem_other _ _ (by decide), hoo, h]
  · rw [hoo, h] at hn
    rw [jsNullish_eq_false_of v hv] at hn
    exact absurd hn (by simp)
  · rw [heq, hoo, h]

theorem ecd_detail_present (p : JObj) (d : JVal)
    (hok : getK p "ok" = some (.bool false))
    (h : getK p "error_detail" = some d) (hd : d ≠ .null) :
    getK (ensureContractDict p) "error_detail" = some d := by
  have hoo : getK (ensureSchemaVersion p) "ok" = getK p "ok" :=
    esv_other p "ok" (by decide)
  rcases ecd_ok_cases p with ⟨hf, heq⟩ | ⟨hf, hn, heq⟩ | ⟨hf, hn, heq⟩
  · have hd1 : getK (coerceErrorMessage (ensureSchemaVersion p)) "error_detail" = some d := by
      rw [cem_other _ _ (by decide), esv_other _ _ (by decide), h]
    rw [heq, eed_id _ (by rw [hd1]; exact jsNullish_eq_false_of d hd), hd1]
  · rw [hoo, hok] at hf
    simp [isFalseV] at hf
  · rw [hoo, hok] at hf
    simp [isFalseV] at hf

theorem ecd_detail_backfill (p : JObj)
    (hok : getK p "ok" = some (.bool false))
    (h : getK p "error_detail" = none) :
    getK (ensureContractDict p) "error_detail"
      = some (.obj [("type", .str (jsToString (jsCoalesce (getK p "type") (.str "error")))),
                    ("message", .str (coercedMsg p))]) := by
  have hoo : getK (ensureSchemaVersion p) "ok" = getK p "ok" :=
    esv_other p "ok" (by decide)
  rcases ecd_ok_cases p with ⟨hf, heq⟩ | ⟨hf, hn, heq⟩ | ⟨hf, hn, heq⟩
  · have hd1 : getK (coerceErrorMessage (ensureSchemaVersion p)) "error_detail" = none := by
      rw [cem_other _ _ (by decide), esv_other _ _ (by decide), h]
    have hdetail : errorDetailOf (coerceErrorMessage (ensureSchemaVersion p))
        = .obj [("type", .str (jsToString (jsCoalesce (getK p "type") (.str "error")))),
                ("message", .str (coercedMsg p))] := by
      unfold errorDetailOf
      rw [cem_other _ _ (by decide), esv_other _ _ (by decide), cem_error_str,
        coercedMsg_congr (ensureSchemaVersion p) p (esv_other p "error" (by decide))]
    rw [heq]
    unfold ensureErrorDetail
    rw [hd1]
    show getK (setK (coerceErrorMessage (ensureSchemaVersion p)) "error_detail"
      (errorDetailOf (coerceErrorMessage (ensureSchemaVersion p)))) "error_detail" = _
    rw [getK_setK_self, hdetail]
  · rw [hoo, hok] at hf
    simp [isFalseV] at hf
  · rw [hoo, hok] at hf
    simp [isFalseV] at hf

/-- C2: normalization is idempotent, adds schema_version and ok only
when absent (preserving present non-null values), and for an explicit
ok:false payload backfills error_detail from the type and error fields
only when error_detail is missing. -/
theorem ensureContractDict_normalization :
    ∀ p : JObj,
      ensureContractDict (ensureContractDict p) = ensureContractDict p
      ∧ (getK p "schema_version" = none →
          getK (ensureContractDict p) "schema_version"
            = some (.str CONTRACT_SCHEMA_VERSION))
      ∧ (∀ v, getK p "schema_version" = some v → v ≠ .null →
          getK (ensureContractDict p) "schema_version" = some v)
      ∧ (getK p "ok" = none → getK (ensureContractDict p) "ok" = some (.bool true))
      ∧ (∀ v, getK p "ok" = some v → v ≠ .null →
          getK (ensureContractDict p) "ok" = some v)
      ∧ (getK p "ok" = some (.bool false) →
          ∀ d, getK p "error_detail" = some d → d ≠ .null →
            getK (ensureContractDict p) "error_detail" = some d)
      ∧ (getK p "ok" = some (.bool false) → getK p "error_detail" = none →
          getK (ensureContractDict p) "error_detail"
            = some (.obj
                [("type", .str (jsToString (jsCoalesce (getK p "type") (.str "error")))),
                 ("message", .str (coercedMsg p))])) := by
  intro p
  exact ⟨ecd_idem p,
    fun h => ecd_sv_absent p h,
    fun v h hv => ecd_sv_present p v h hv,
    fun h => ecd_ok_absent p h,
    fun v h hv => ecd_ok_present p v h hv,
    fun hok d h hd => ecd_detail_present p d hok h hd,
    fun hok h => ecd_detail_backfill p hok h⟩

/-- C2 witness: the normalizer applied at concrete payloads covering
the empty payload, an already-normalized success payload, and error
payloads with and without an explicit error_detail. -/
theorem ensureContractDict_normalization_witness :
    ensureContractDict (ensureContractDict ([] : JObj)) = ensureContractDict []
    ∧ getK (ensureContractDict []) "schema_version" = some (.str CONTRACT_SCHEMA_VERSION)
    ∧ getK (ensureContractDict []) "ok" = some (.bool true)
    ∧ getK (ensureContractDict
        [("schema_version", .str "2.0"), ("ok", .bool true)]) "schema_version"
        = some (.str "2.0")
    ∧ getK (ensureContractDict
        [("schema_version", .str "2.0"), ("ok", .bool true)]) "ok" = some (.bool true)
    ∧ getK (ensureContractDict
        [("ok", .bool false), ("error", .str "bad"),
         ("error_detail", .obj [("type", .str "error"), ("message", .str "bad")])])
        "error_detail"
        = some (.obj [("type", .str "error"), ("message", .str "bad")])
    ∧ getK (ensureContractDict
        [("ok", .bool false), ("type", .str "setup"), ("error", .num 7)]) "error_detail"
        = some (.obj [("type", .str "setup"), ("message", .str "7")]) :=
  ⟨(ensureContractDict_normalization []).1,
   (ensureContractDict_normalization []).2.1 rfl,
   (ensureContractDict_normalization []).2.2.2.1 rfl,
   (ensureContractDict_normalization
      [("schema_version", .str "2.0"), ("ok", .bool true)]).2.2.1
      (.str "2.0") rfl (fun h => JVal.noConfusion h),
   (ensureContractDict_normalization
      [("schema_version", .str "2.0"), ("ok", .bool true)]).2.2.2.2.1
      (.bool true) rfl (fun h => JVal.noConfusion h),
   (ensureContractDict_normalization
      [("ok", .bool false), ("error", .str "bad"),
       ("error_detail", .obj [("type", .str "error"), ("message", .str "bad")])]).2.2.2.2.2.1
      rfl (.obj [("type", .str "error"), ("message", .str "bad")]) rfl
      (fun h => JVal.noConfusion h),
   (ensureContractDict_normalization
      [("ok", .bool false), ("type", .str "setup"), ("error", .num 7)]).2.2.2.2.2.2
      rfl rfl⟩

/-
C6.
-/

theorem sortLe_eq (lc : String → String → Ordering) (f : String) (a b : JVal) :
    sortLe lc f a b =
      match (if (f == "updated" || f == "created") = true
        then lc (jsStr0 (getField b [f])) (jsStr0 (getField a [f]))
        else lc (jsStr0 (getField a [f])) (jsStr0 (getField b [f]))) with
      | .gt => false
      | _ => true := rfl

/-- C6: with a locale comparison that is transitive and total on
non-greater outcomes, the list-cards sort step permutes the cards and
orders them descending (each later card compares no greater, read
backwards) on the fields updated and created, ascending on every other
field, always comparing the stringified field values. -/
theorem sortCards_order :
    ∀ (lc : String → String → Ordering)
      (hTrans : ∀ a b c : String, lc a b ≠ .gt → lc b c ≠ .gt → lc a c ≠ .gt)
      (hTotal : ∀ a b : String, lc a b = .gt → lc b a ≠ .gt)
      (sortField : String) (cards : List JVal),
      (sortCards lc sortField cards).Perm cards
      ∧ ((sortField = "updated" ∨ sortField = "created") →
          (sortCards lc sortField cards).Pairwise (fun a b =>
            lc (jsStr0 (getField b [sortField])) (jsStr0 (getField a [sortField])) ≠ .gt))
      ∧ (sortField ≠ "updated" → sortField ≠ "created" →
          (sortCards lc sortField cards).Pairwise (fun a b =>
            lc (jsStr0 (getField a [sortField])) (jsStr0 (getField b [sortField])) ≠ .gt)) := by
  intro lc hTrans hTotal sortField cards
  have hr_total : ∀ a b : JVal,
      sortLe lc sortField a b = true ∨ sortLe lc sortField b a = true := by
    intro a b
    rw [sortLe_eq, sortLe_eq]
    by_cases hrev : (sortField == "updated" || sortField == "created") = true
    · rw [if_pos hrev, if_pos hrev]
      cases hl : lc (jsStr0 (getField b [sortField])) (jsStr0 (getField a [sortField])) with
      | lt => exact Or.inl rfl
      | eq => exact Or.inl rfl
      | gt =>
          have h2 := hTotal _ _ hl
          cases hg : lc (jsStr0 (getField a [sortField])) (jsStr0 (getField b [sortField])) with
          | lt => exact Or.inr rfl
          | eq => exact Or.inr rfl
          | gt => exact absurd hg h2
    · rw [if_neg hrev, if_neg hrev]
      cases hl : lc (jsStr0 (getField a [sortField])) (jsStr0 (getField b [sortField])) with
      | lt => exact Or.inl rfl
      | eq => exact Or.inl rfl
      | gt =>
          have h2 := hTotal _ _ hl
          cases hg : lc (jsStr0 (getField b [sortField])) (jsStr0 (getField a [sortField])) with
          | lt => exact Or.inr rfl
          | eq => exact Or.inr rfl
          | gt => exact absurd hg h2
  have hmatch : ∀ o : Ordering,
      (match o with | .gt => false | _ => true) = true ↔ o ≠ .gt := by
    intro o
    cases o <;> simp
  have hr_trans : ∀ a b c : JVal,
      sortLe lc sortField a b = true → sortLe lc sortField b c = true →
      sortLe lc sortField a c = true := by
    intro a b c hab hbc
    rw [sortLe_eq] at hab hbc
    rw [sortLe_eq]
    by_cases hrev : (sortField == "updated" || sortField == "created") = true
    · rw [if_pos hrev] at hab hbc
      rw [if_pos hrev, hmatch]
      rw [hmatch] at hab hbc
      exact hTrans _ _ _ hbc hab
    · rw [if_neg hrev] at hab hbc
      rw [if_neg hrev, hmatch]
      rw [hmatch] at hab hbc
      exact hTrans _ _ _ hab hbc
  haveI : IsTotal JVal (fun a b => sortLe lc sortField a b = true) := ⟨hr_total⟩
  haveI : IsTrans JVal (fun a b => sortLe lc sortField a b = true) := ⟨hr_trans⟩
  have hsorted := List.sorted_insertionSort
    (fun a b => sortLe lc sortField a b = true) cards
  have hperm := List.perm_insertionSort
    (fun a b => sortLe lc sortField a b = true) cards
  refine ⟨hperm, ?_, ?_⟩
  · intro hrev
    have hrevB : (sortField == "updated" || sortField == "created") = true := by
      rcases hrev with h | h <;> simp [h]
    refine List.Pairwise.imp ?_ hsorted
    intro a b hab
    rw [sortLe_eq, if_pos hrevB, hmatch] at hab
    exact hab
  · intro h1 h2
    have hrevB : (sortField == "updated" || sortField == "created") = false := by
      simp [h1, h2]
    refine List.Pairwise.imp ?_ hsorted
    intro a b hab
    rw [sortLe_eq, if_neg (by simp [hrevB]), hmatch] at hab
    exact hab

/-- Concrete stand-in for a locale comparison, used by the sort
witness: compares strings by length. -/
def lengthCmp (s t : String) : Ordering :=
  if s.length < t.length then .lt else if s.length = t.length then .eq else .gt

theorem lengthCmp_eq_gt (s t : String) :
    lengthCmp s t = .gt ↔ t.length < s.length := by
  unfold lengthCmp
  split_ifs with h1 h2 <;> simp <;> omega

/-- C6 witness: the sort step at a concrete length-based locale
comparison and two concrete cards carrying an updated field. -/
theorem sortCards_order_witness :
    (sortCards lengthCmp "updated"
      [.obj [("updated", .str "2024-01-01")],
       .obj [("updated", .str "2025-06-06T10:00")]]).Perm
      [.obj [("updated", .str "2024-01-01")],
       .obj [("updated", .str "2025-06-06T10:00")]]
    ∧ (sortCards lengthCmp "updated"
        [.obj [("updated", .str "2024-01-01")],
         .obj [("updated", .str "2025-06-06T10:00")]]).Pairwise (fun a b =>
        lengthCmp (jsStr0 (getField b ["updated"]))
          (jsStr0 (getField a ["updated"])) ≠ .gt) := by
  have hTrans : ∀ a b c : String,
      lengthCmp a b ≠ .gt → lengthCmp b c ≠ .gt → lengthCmp a c ≠ .gt := by
    intro a b c h1 h2
    rw [Ne, lengthCmp_eq_gt] at h1 h2 ⊢
    omega
  have hTotal : ∀ a b : String,
      lengthCmp a b = .gt → lengthCmp b a ≠ .gt := by
    intro a b h
    rw [lengthCmp_eq_gt] at h
    rw [Ne, lengthCmp_eq_gt]
    omega
  exact ⟨(sortCards_order lengthCmp hTrans hTotal "updated" _).1,
    (sortCards_order lengthCmp hTrans hTotal "updated" _).2.1 (Or.inl rfl)⟩

/-
C5.
-/

/-- C5: for a card list with statuses not_started, started, blocked,
done, listing with the filter status started,blocked returns exactly
the started and blocked cards in their original order (no sort
requested); and a status value outside the closed status enumeration
raises a validation error before any card query is issued. -/
theorem listCards_status_filter_and_validation :
    (∀ (fetch : JVal → JObj) (lc : String → String → Ordering)
        (parseIso : String → Option Int) (now : Int)
        (resp : JObj) (c1 c2 c3 c4 : JVal),
      (∀ q, fetch q = resp) →
      extractCards resp = [c1, c2, c3, c4] →
      getMember c1 "status" = some (.str "not_started") →
      getMember c2 "status" = some (.str "started") →
      getMember c3 "status" = some (.str "blocked") →
      getMember c4 "status" = some (.str "done") →
      listCards fetch lc parseIso now { status := some "started,blocked" }
        = (.ok [("cards", .arr [c2, c3]), ("stats", .null), ("count", .num 2)],
           [cardsQueryDoc [("visibility", .str "default")] baseCardFields]))
    ∧ (∀ (fetch : JVal → JObj) (lc : String → String → Ordering)
        (parseIso : String → Option Int) (now : Int) (o : ListOptions) (s v : String),
      o.status = some s → s ≠ "" →
      v ∈ (jsSplitComma s).map jsTrim → ¬ v ∈ VALID_STATUSES →
      ∃ e, listCards fetch lc parseIso now o = (.error e, [])) := by
  constructor
  · intro fetch lc parseIso now resp c1 c2 c3 c4 hf hex h1 h2 h3 h4
    have hstep : listCardsStatusStep { status := some "started,blocked" }
        [("visibility", .str "default")]
        = .ok (some ["started", "blocked"], [("visibility", .str "default")]) := by rfl
    simp only [listCards]
    norm_num [hstep, listCardsDeckStep]
    rw [hf, hex]
    simp +decide [listCardsFilter, h1, h2, h3, h4, jsStr0, jsCoalesce, jsToString]
  · intro fetch lc parseIso now o s v hs hne hv hnv
    have hfind : (((jsSplitComma s).map jsTrim).find?
        (fun w => !VALID_STATUSES.contains w)).isSome := by
      rw [List.find?_isSome]
      refine ⟨v, hv, ?_⟩
      simp
      intro hc
      exact absurd hc hnv
    obtain ⟨w, hw⟩ := Option.isSome_iff_exists.mp hfind
    have hpm : parseMultiValue s VALID_STATUSES "status"
        = .error ("[ERROR] Invalid " ++ "status" ++ ": \x27" ++ w
            ++ "\x27. Valid: " ++ String.intercalate ", " VALID_STATUSES) := by
      simp only [parseMultiValue]
      rw [hw]
    have hstep : listCardsStatusStep o
        [("visibility", .str (if o.archived then "archived" else "default"))]
        = .error ("[ERROR] Invalid " ++ "status" ++ ": \x27" ++ w
            ++ "\x27. Valid: " ++ String.intercalate ", " VALID_STATUSES) := by
      unfold listCardsStatusStep
      simp only [hs]
      rw [if_pos hne, hpm]
    refine ⟨"[ERROR] Invalid " ++ "status" ++ ": \x27" ++ w
      ++ "\x27. Valid: " ++ String.intercalate ", " VALID_STATUSES, ?_⟩
    simp only [listCards]
    rw [hstep]

/-- C5 witness: a concrete four-card response filtered with
status started,blocked, and a concrete invalid status value. -/
theorem listCards_status_filter_and_validation_witness :
    listCards
      (fun _ => [("card", .obj
        [("i1", .obj [("status", .str "not_started")]),
         ("i2", .obj [("status", .str "started")]),
         ("i3", .obj [("status", .str "blocked")]),
         ("i4", .obj [("status", .str "done")])])])
      lengthCmp (fun _ => none) 0 { status := some "started,blocked" }
      = (.ok [("cards", .arr [.obj [("status", .str "started")],
                              .obj [("status", .str "blocked")]]),
              ("stats", .null), ("count", .num 2)],
         [cardsQueryDoc [("visibility", .str "default")] baseCardFields])
    ∧ ∃ e, listCards (fun _ => [("card", .obj [])]) lengthCmp (fun _ => none) 0
        { status := some "bogus" } = (.error e, []) :=
  ⟨listCards_status_filter_and_validation.1
      (fun _ => [("card", .obj
        [("i1", .obj [("status", .str "not_started")]),
         ("i2", .obj [("status", .str "started")]),
         ("i3", .obj [("status", .str "blocked")]),
         ("i4", .obj [("status", .str "done")])])])
      lengthCmp (fun _ => none) 0 _ _ _ _ _
      (fun _ => rfl) rfl rfl rfl rfl rfl,
   listCards_status_filter_and_validation.2
      (fun _ => [("card", .obj [])]) lengthCmp (fun _ => none) 0
      { status := some "bogus" } "bogus" "bogus" rfl (by decide) (by decide) (by decide)⟩

/-
C9.
-/

/-- C9: with dry_run set, split-features issues zero mutating report
calls, returns exactly the dry-run discovery payload (count and
identities of the un-split features) when the deck listing succeeds,
propagates the listing error otherwise, and issues exactly the queries
of the discovery listing. -/
theorem splitFeatures_dry_run :
    ∀ (fetch : JVal → JObj) (lc : String → String → Ordering)
      (parseIso : String → Option Int) (now : Int)
      (report : String → Option String → Except String JObj) (o : SplitOptions),
      o.dryRun = true →
      (splitFeatures fetch lc parseIso now report o).2.2 = []
      ∧ (splitFeatures fetch lc parseIso now report o).1
          = (match listCards fetch lc parseIso now { deck := some o.deck } with
             | (.ok all, _) => .ok (dryRunPayload (discoveredFeatures all))
             | (.error e, _) => .error e)
      ∧ (splitFeatures fetch lc parseIso now report o).2.1
          = (listCards fetch lc parseIso now { deck := some o.deck }).2 := by
  intro fetch lc parseIso now report o hdry
  obtain ⟨deck, codeDeck, designDeck, artDeck, skipArt, audioDeck, skipAudio,
    priority, dryRun⟩ := o
  dsimp only at hdry ⊢
  subst hdry
  unfold splitFeatures
  cases hl : listCards fetch lc parseIso now { deck := some deck } with
  | mk res qs =>
      cases res with
      | error e => exact ⟨rfl, rfl, rfl⟩
      | ok all => exact ⟨rfl, rfl, rfl⟩

/-- C9 witness: dry-run split over a one-deck, one-card environment
issues no mutating calls and reports the single un-split feature. -/
theorem splitFeatures_dry_run_witness :
    (splitFeatures
      (fun _ => [("deck", .obj [("d1", .obj [("title", .str "Art"), ("id", .str "deck-1")])]),
                 ("card", .obj [("c1", .obj [("id", .str "card-1"), ("title", .str "Boss fight")])])])
      lengthCmp (fun _ => none) 0
      (fun _ _ => Except.ok ([] : JObj))
      { deck := "Art", codeDeck := "Code", designDeck := "Design", dryRun := true }).2.2 = []
    ∧ (splitFeatures
      (fun _ => [("deck", .obj [("d1", .obj [("title", .str "Art"), ("id", .str "deck-1")])]),
                 ("card", .obj [("c1", .obj [("id", .str "card-1"), ("title", .str "Boss fight")])])])
      lengthCmp (fun _ => none) 0
      (fun _ _ => Except.ok ([] : JObj))
      { deck := "Art", codeDeck := "Code", designDeck := "Design", dryRun := true }).1
      = (match listCards
          (fun _ => [("deck", .obj [("d1", .obj [("title", .str "Art"), ("id", .str "deck-1")])]),
                     ("card", .obj [("c1", .obj [("id", .str "card-1"), ("title", .str "Boss fight")])])])
          lengthCmp (fun _ => none) 0 { deck := some "Art" } with
         | (.ok all, _) => .ok (dryRunPayload (discoveredFeatures all))
         | (.error e, _) => .error e) :=
  ⟨(splitFeatures_dry_run
      (fun _ => [("deck", .obj [("d1", .obj [("title", .str "Art"), ("id", .str "deck-1")])]),
                 ("card", .obj [("c1", .obj [("id", .str "card-1"), ("title", .str "Boss fight")])])])
      lengthCmp (fun _ => none) 0 (fun _ _ => Except.ok ([] : JObj))
      { deck := "Art", codeDeck := "Code", designDeck := "Design", dryRun := true } rfl).1,
   (splitFeatures_dry_run
      (fun _ => [("deck", .obj [("d1", .obj [("title", .str "Art"), ("id", .str "deck-1")])]),
                 ("card", .obj [("c1", .obj [("id", .str "card-1"), ("title", .str "Boss fight")])])])
      lengthCmp (fun _ => none) 0 (fun _ _ => Except.ok ([] : JObj))
      { deck := "Art", codeDeck := "Code", designDeck := "Design", dryRun := true } rfl).2.1⟩
